import Mathlib

/-!
Verification of the swoop scalar minimisation routines.

The Rust source is shallowly embedded over `ℚ`: every `f64` value is
modelled as an exact rational, `f64` literals by their decimal values, and
`f64` arithmetic by exact rational arithmetic.  `f64::EPSILON` is `2⁻⁵²`
and its square root is exactly `2⁻²⁶`.  The objective function is a pure
`ℚ → ℚ`; each routine additionally returns the number of times it invoked
the objective (a ghost counter incremented at every `evaluate` call site),
so that eager-validation and evaluation-count claims can be stated.
-/

namespace Swoop

/-- Error enum from `src/lib.rs` (the `Other` passthrough variant carries an
    external `anyhow` error and is never constructed by the routines we model). -/
inductive SwoopErrors where
  | MaxIterExceeded : SwoopErrors
  | ArgumentError : String → SwoopErrors
deriving Repr, DecidableEq

/-- `ScalarOptimisationResult` from `src/minimise_scalar/mod.rs` (the `fun`
    field is named `fun'` because `fun` is a Lean keyword). -/
structure ScalarOptimisationResult where
  fun' : ℚ
  nfev : ℕ
  success : Bool
  x : ℚ
deriving Repr, DecidableEq

/-- `BracketResult` from `src/minimise_scalar/mod.rs`. -/
structure BracketResult where
  bracket : ℚ × ℚ × ℚ
  fun_calls : ℕ
deriving Repr, DecidableEq

/-- The literal `1.618_034` (`gold`) from `bracket`. -/
def gold : ℚ := 1618034 / 10^6

/-- The literal `1e-21` (`very_small_number`) from `bracket`. -/
def very_small_number : ℚ := 1 / 10^21

/-- Loop state of `bracket`: the three abscissae, their objective values,
    the source's `fun_calls` counter, and the ghost evaluation counter. -/
structure BracketState where
  xa : ℚ
  xb : ℚ
  xc : ℚ
  fa : ℚ
  fb : ℚ
  fc : ℚ
  fun_calls : ℕ
  evals : ℕ
deriving Repr, DecidableEq

/-- The numerically-stabilised quadratic-extremum candidate `w` of one
    `bracket` iteration (`mod.rs` lines 88-98). -/
def bracketW (s : BracketState) : ℚ :=
  let tmp1 := (s.xb - s.xa) * (s.fb - s.fc)
  let tmp2 := (s.xb - s.xc) * (s.fb - s.fa)
  let val := tmp2 - tmp1
  let denom := if |val| < very_small_number then 2 * very_small_number else 2 * val
  s.xb - ((s.xb - s.xc) * tmp2 - (s.xb - s.xa) * tmp1) / denom

/-- The growth limit `wlim` of one `bracket` iteration (line 99). -/
def bracketWlim (grow_limit : ℚ) (s : BracketState) : ℚ :=
  s.xb + grow_limit * (s.xc - s.xb)

/-- The `while fc < fb` loop of `bracket` (`src/minimise_scalar/mod.rs`,
    lines 87-157).  The fuel argument is `maxiter + 1 - iter`: the source
    increments `iter` once per pass and fails when `iter > maxiter`, which is
    exactly the fuel-zero case here.  (`w`/`wlim` are computed before the
    budget check in the source; they are pure, so computing them only in the
    surviving branch is observationally identical.) -/
def bracketLoop (f : ℚ → ℚ) (grow_limit : ℚ) :
    ℕ → BracketState → Except SwoopErrors BracketResult × ℕ
  | 0, s =>
    if s.fc < s.fb then
      (.error .MaxIterExceeded, s.evals)
    else
      (.ok ⟨(s.xa, s.xb, s.xc), s.fun_calls⟩, s.evals)
  | n+1, s =>
    if s.fc < s.fb then
      let w := bracketW s
      let wlim := bracketWlim grow_limit s
      if (w - s.xc) * (s.xb - w) > 0 then
        let fw := f w
        if fw < s.fc then
          (.ok ⟨(s.xb, w, s.xc), s.fun_calls + 1⟩, s.evals + 1)
        else if fw > s.fb then
          (.ok ⟨(s.xa, s.xb, w), s.fun_calls + 1⟩, s.evals + 1)
        else
          let w2 := s.xc + gold * (s.xc - s.xb)
          let fw2 := f w2
          bracketLoop f grow_limit n
            ⟨s.xb, s.xc, w2, s.fb, s.fc, fw2, s.fun_calls + 2, s.evals + 2⟩
      else if (w - wlim) * (wlim - s.xc) ≥ 0 then
        let fw2 := f wlim
        bracketLoop f grow_limit n
          ⟨s.xb, s.xc, wlim, s.fb, s.fc, fw2, s.fun_calls + 1, s.evals + 1⟩
      else if (w - wlim) * (s.xc - w) > 0 then
        let fw := f w
        if fw < s.fc then
          let w2 := w + gold * (w - s.xc)
          let fw2 := f w2
          bracketLoop f grow_limit n
            ⟨s.xc, w, w2, s.fc, fw, fw2, s.fun_calls + 2, s.evals + 2⟩
        else
          bracketLoop f grow_limit n
            ⟨s.xb, s.xc, w, s.fb, s.fc, fw, s.fun_calls + 1, s.evals + 1⟩
      else
        let w2 := s.xc + gold * (s.xc - s.xb)
        let fw2 := f w2
        bracketLoop f grow_limit n
          ⟨s.xb, s.xc, w2, s.fb, s.fc, fw2, s.fun_calls + 1, s.evals + 1⟩
    else
      (.ok ⟨(s.xa, s.xb, s.xc), s.fun_calls⟩, s.evals)

/-- `bracket` from `src/minimise_scalar/mod.rs`: evaluate the two seeds,
    swap so the search runs downhill, extrapolate `xc`, then loop. -/
def bracket (f : ℚ → ℚ) (xa xb : ℚ) (grow_limit : ℚ) (maxiter : ℕ) :
    Except SwoopErrors BracketResult × ℕ :=
  let fa := f xa
  let fb := f xb
  let xa' := if fa < fb then xb else xa
  let xb' := if fa < fb then xa else xb
  let fa' := if fa < fb then fb else fa
  let fb' := if fa < fb then fa else fb
  let xc := xb' + gold * (xb' - xa')
  let fc := f xc
  bracketLoop f grow_limit (maxiter + 1) ⟨xa', xb', xc, fa', fb', fc, 3, 3⟩

/-- `bracket_default` from `src/minimise_scalar/mod.rs`. -/
def bracket_default (f : ℚ → ℚ) : Except SwoopErrors BracketResult × ℕ :=
  bracket f 0 1 110 1000

/-! ### Golden-section search (`src/minimise_scalar/golden.rs`) -/

/-- The default tolerance `2.22e-16` of `golden`. -/
def goldenDefaultXtol : ℚ := 222 / 10^18

/-- The literal `0.618_033_99` (`gr`) from `golden`. -/
def gr : ℚ := 61803399 / 10^8

/-- `gc = 1.0 - gr` from `golden` (exact in `f64` by Sterbenz, so exact here). -/
def gc : ℚ := 1 - gr

/-- Loop state of `golden`: outer points `x0, x3`, interior points `x1, x2`
    with their values `f1, f2`, the source's `fun_calls` counter, the ghost
    evaluation counter and the source's `nit` iteration counter. -/
structure GoldenState where
  x0 : ℚ
  x1 : ℚ
  x2 : ℚ
  x3 : ℚ
  f1 : ℚ
  f2 : ℚ
  fun_calls : ℕ
  evals : ℕ
  nit : ℕ
deriving Repr, DecidableEq

/-- One iteration of the `golden` loop body (`golden.rs` lines 62-77). -/
def goldenStep (f : ℚ → ℚ) (s : GoldenState) : GoldenState :=
  if s.f2 < s.f1 then
    ⟨s.x1, s.x2, gr * s.x2 + gc * s.x3, s.x3,
      s.f2, f (gr * s.x2 + gc * s.x3), s.fun_calls + 1, s.evals + 1, s.nit + 1⟩
  else
    ⟨s.x0, gr * s.x1 + gc * s.x0, s.x1, s.x2,
      f (gr * s.x1 + gc * s.x0), s.f1, s.fun_calls + 1, s.evals + 1, s.nit + 1⟩

/-- The `for _ in 0..maxiter` loop of `golden` (lines 57-78); the fuel is the
    number of remaining loop passes, and the `break` on the tolerance test is
    the stop case. -/
def goldenLoop (f : ℚ → ℚ) (tol : ℚ) : ℕ → GoldenState → GoldenState
  | 0, s => s
  | n+1, s =>
    if |s.x3 - s.x0| ≤ tol * (|s.x1| + |s.x2|) then s
    else goldenLoop f tol n (goldenStep f s)

/-- Interior-point initialisation of `golden` (lines 36-53) from a bracket;
    `evals0` is the ghost evaluation count accumulated by bracketing.  Note
    the source performs TWO evaluations here (`f1` and `f2`) but increments
    `fun_calls` only once (line 53). -/
def goldenSetup (f : ℚ → ℚ) (br : BracketResult) (evals0 : ℕ) : GoldenState :=
  let xa := br.bracket.1
  let xb := br.bracket.2.1
  let xc := br.bracket.2.2
  let x1 := if |xc - xb| > |xb - xa| then xb else xb - gc * (xb - xa)
  let x2 := if |xc - xb| > |xb - xa| then xb + gc * (xc - xb) else xb
  ⟨xa, x1, x2, xc, f x1, f x2, br.fun_calls + 1, evals0 + 2, 0⟩

/-- The `xtol` validation of `golden` (lines 19-29). -/
def goldenXtolCheck (xtol : Option ℚ) : Except SwoopErrors ℚ :=
  match xtol with
  | some i =>
    if i < 0 then .error (.ArgumentError "Tolerance cannot be negative")
    else .ok i
  | none => .ok goldenDefaultXtol

/-- `golden` from `src/minimise_scalar/golden.rs`; the second component is
    the ghost count of objective evaluations actually performed. -/
def golden (f : ℚ → ℚ) (xtol : Option ℚ) (maxiter : ℕ) :
    Except SwoopErrors ScalarOptimisationResult × ℕ :=
  match goldenXtolCheck xtol with
  | .error e => (.error e, 0)
  | .ok tol =>
    match bracket_default f with
    | (.error e, n) => (.error e, n)
    | (.ok br, n) =>
      let sf := goldenLoop f tol maxiter (goldenSetup f br n)
      let xmin := if sf.f1 < sf.f2 then sf.x1 else sf.x2
      let fval := if sf.f1 < sf.f2 then sf.f1 else sf.f2
      if sf.nit < maxiter then
        (.ok ⟨fval, sf.fun_calls, true, xmin⟩, sf.evals)
      else
        (.error .MaxIterExceeded, sf.evals)

/-! ### Brent's method, unbounded (`src/minimise_scalar/brent.rs`) -/

/-- The default tolerance `1.48e-8` of `brent`. -/
def brentDefaultXtol : ℚ := 148 / 10^10

/-- The literal `1.0e-11` (`min_tol`) from `brent`. -/
def min_tol : ℚ := 1 / 10^11

/-- The literal `0.381_966_0` (`cg`) from `brent`. -/
def cg : ℚ := 3819660 / 10^7

/-- `f64::EPSILON = 2⁻⁵²` (`error_margin` in `brent` and `bounded`). -/
def errorMargin : ℚ := 1 / 2^52

/-- Loop state of `brent`: best/second/third points with values, the current
    interval `[a, b]`, the last two step sizes `deltax`/`rat`, the source's
    `fun_calls` counter and the ghost evaluation counter. -/
structure BrentState where
  x : ℚ
  w : ℚ
  v : ℚ
  fx : ℚ
  fw : ℚ
  fv : ℚ
  a : ℚ
  b : ℚ
  deltax : ℚ
  rat : ℚ
  fun_calls : ℕ
  evals : ℕ
deriving Repr, DecidableEq

/-- `tol1 = tol * x.abs() + min_tol` from the `brent` loop. -/
def brentTol1 (tol : ℚ) (s : BrentState) : ℚ := tol * |s.x| + min_tol

/-- `tol2 = 2.0 * tol1` from the `brent` loop. -/
def brentTol2 (tol : ℚ) (s : BrentState) : ℚ := 2 * brentTol1 tol s

/-- `xmid = 0.5 * (a + b)` from the `brent` loop. -/
def brentXmid (s : BrentState) : ℚ := (s.a + s.b) / 2

/-- The step-size selection of one `brent` iteration (`brent.rs` lines
    87-130): returns the new `(deltax, rat)` pair — a golden-section step when
    the previous step was below `tol1` or the parabolic candidate is rejected,
    the (possibly near-boundary-clamped) parabolic step otherwise. -/
def brentDR (tol : ℚ) (s : BrentState) : ℚ × ℚ :=
  let tol1 := brentTol1 tol s
  let tol2 := brentTol2 tol s
  let xmid := brentXmid s
  if |s.deltax| ≤ tol1 then
    let d := if s.x ≥ xmid then s.a - s.x else s.b - s.x
    (d, cg * d)
  else
    let tmp1 := (s.x - s.w) * (s.fx - s.fv)
    let tmp2 := (s.x - s.v) * (s.fx - s.fw)
    let p0 := (s.x - s.v) * tmp2 - (s.x - s.w) * tmp1
    let tmp2b := 2 * (tmp2 - tmp1)
    let p := if tmp2b > 0 then -p0 else p0
    let tmp2c := |tmp2b|
    let dx_temp := s.deltax
    if p > tmp2c * (s.a - s.x) ∧ p < tmp2c * (s.b - s.x) ∧
        |p| < |tmp2c * dx_temp / 2| then
      let rat1 := p * 1 / tmp2c
      let u0 := s.x + rat1
      if u0 - s.a < tol2 ∨ s.b - u0 < tol2 then
        (s.rat, if xmid - s.x ≥ 0 then tol1 else -tol1)
      else (s.rat, rat1)
    else
      let d := if s.x ≥ xmid then s.a - s.x else s.b - s.x
      (d, cg * d)

/-- The point evaluated by one `brent` iteration (lines 131-139): the step
    `rat` floored in magnitude to `tol1`, taken from `x`. -/
def brentU (tol : ℚ) (s : BrentState) : ℚ :=
  let tol1 := brentTol1 tol s
  let rat' := (brentDR tol s).2
  if |rat'| < tol1 then (if rat' ≥ 0 then s.x + tol1 else s.x - tol1)
  else s.x + rat'

/-- One full iteration of the `brent` loop body (lines 87-172): pick the
    step, evaluate, and do the standard Brent bookkeeping. -/
def brentStep (f : ℚ → ℚ) (tol : ℚ) (s : BrentState) : BrentState :=
  let dr := brentDR tol s
  let u := brentU tol s
  let fu := f u
  if fu > s.fx then
    let a' := if u < s.x then u else s.a
    let b' := if u < s.x then s.b else u
    if fu ≤ s.fw ∨ |s.w - s.x| < errorMargin then
      ⟨s.x, u, s.w, s.fx, fu, s.fw, a', b', dr.1, dr.2,
        s.fun_calls + 1, s.evals + 1⟩
    else if fu ≤ s.fv ∨ |s.v - s.x| < errorMargin ∨ |s.v - s.w| < errorMargin then
      ⟨s.x, s.w, u, s.fx, s.fw, fu, a', b', dr.1, dr.2,
        s.fun_calls + 1, s.evals + 1⟩
    else
      ⟨s.x, s.w, s.v, s.fx, s.fw, s.fv, a', b', dr.1, dr.2,
        s.fun_calls + 1, s.evals + 1⟩
  else
    let a' := if u ≥ s.x then s.x else s.a
    let b' := if u ≥ s.x then s.b else s.x
    ⟨u, s.x, s.w, fu, s.fx, s.fw, a', b', dr.1, dr.2,
      s.fun_calls + 1, s.evals + 1⟩

/-- The `while iter < maxiter` loop of `brent` (lines 77-173); fuel is the
    number of remaining iterations, and the convergence `break` is the stop
    case. -/
def brentLoop (f : ℚ → ℚ) (tol : ℚ) : ℕ → BrentState → BrentState
  | 0, s => s
  | n+1, s =>
    if |s.x - brentXmid s| < brentTol2 tol s - (s.b - s.a) / 2 then s
    else brentLoop f tol n (brentStep f tol s)

/-- The `xtol` validation of `brent` (lines 23-33). -/
def brentXtolCheck (xtol : Option ℚ) : Except SwoopErrors ℚ :=
  match xtol with
  | some i =>
    if i < 0 then .error (.ArgumentError "Tolerance cannot be negative")
    else .ok i
  | none => .ok brentDefaultXtol

/-- `brent` from `src/minimise_scalar/brent.rs`; the second component is the
    ghost count of objective evaluations actually performed.  The initial
    `deltax` and `rat = deltax * cg` are both `0`. -/
def brent (f : ℚ → ℚ) (xtol : Option ℚ) (maxiter : ℕ) :
    Except SwoopErrors ScalarOptimisationResult × ℕ :=
  match brentXtolCheck xtol with
  | .error e => (.error e, 0)
  | .ok tol =>
    match bracket_default f with
    | (.error e, n) => (.error e, n)
    | (.ok br, n) =>
      let xa := br.bracket.1
      let xb := br.bracket.2.1
      let xc := br.bracket.2.2
      let fw0 := f xb
      let a0 := if xa < xc then xa else xc
      let b0 := if xa < xc then xc else xa
      let sf := brentLoop f tol maxiter
        ⟨xb, xb, xb, fw0, fw0, fw0, a0, b0, 0, 0, br.fun_calls + 1, n + 1⟩
      (.ok ⟨sf.fx, sf.fun_calls, true, sf.x⟩, sf.evals)

/-! ### Bounded Brent search (`src/minimise_scalar/bounded.rs`) -/

/-- `sign` from `bounded.rs`: `0` within `f64::EPSILON` of zero, else `±1`. -/
def sign (number : ℚ) : ℚ :=
  if |number - 0| < errorMargin then 0
  else if number > 0 then 1 else -1

/-- `zero_diff` from `bounded.rs`. -/
def zero_diff (a b : ℚ) : ℚ :=
  if |a - b - 0| < errorMargin then 1 else 0

/-- `zero_or_not` from `bounded.rs`. -/
def zero_or_not (a : ℚ) : ℚ :=
  if |a - 0| < errorMargin then 1 else 0

/-- `arg_max` from `bounded.rs`. -/
def arg_max (a b : ℚ) : ℚ :=
  if a > b then a else if b > a then b else a

/-- The literal `1e-5` (`xatol`) from `bounded`. -/
def xatol : ℚ := 1 / 10^5

/-- `sqrt_eps = f64::EPSILON.sqrt()`; since `f64::EPSILON = 2⁻⁵²` is an even
    power of two its square root is computed exactly, `2⁻²⁶`. -/
def sqrt_eps : ℚ := 1 / 2^26

/-- `golden_mean = 0.5 * (3 - sqrt 5)`: `√5` is irrational, so this is the
    16-significant-digit rational approximation of the `f64` value.  The
    proofs below use only `0 < golden_mean < 1/2`. -/
def golden_mean : ℚ := 3819660112501051 / 10^16

/-- Loop state of `bounded`: interval `[a, b]`, best point `xf` and the two
    previous best points `nfc`, `fulc` with their values, the last two step
    sizes `rat`/`e`, the source's `num` evaluation counter (an `f64` in the
    source), the `success` flag, and the ghost evaluation counter. -/
structure BoundedState where
  a : ℚ
  b : ℚ
  fulc : ℚ
  nfc : ℚ
  xf : ℚ
  fx : ℚ
  ffulc : ℚ
  fnfc : ℚ
  rat : ℚ
  e : ℚ
  num : ℚ
  success : Bool
  evals : ℕ
deriving Repr, DecidableEq

/-- `tol1 = sqrt_eps * xf.abs() + xatol / 3.0` from `bounded`; recomputed
    from the current state before every loop test (lines 99, 185). -/
def bTol1 (s : BoundedState) : ℚ := sqrt_eps * |s.xf| + xatol / 3

/-- `tol2 = 2.0 * tol1` from `bounded`. -/
def bTol2 (s : BoundedState) : ℚ := 2 * bTol1 s

/-- `xm = 0.5 * (a + b)` from `bounded`. -/
def bXm (s : BoundedState) : ℚ := (s.a + s.b) / 2

/-- The `while` guard of `bounded` (line 110). -/
abbrev boundedCond (s : BoundedState) : Prop :=
  |s.xf - bXm s| > bTol2 s - (s.b - s.a) / 2

/-- The parabolic-fit attempt of the `bounded` loop body (`bounded.rs` lines
    111-139): returns the source's `(golden, e, rat)` triple after the
    attempt.  The first component mirrors the source's `golden` variable,
    which is initialised `true` and — in every branch, including parabolic
    acceptance — left (or re-set) `true`. -/
def boundedParabTriple (s : BoundedState) : Bool × ℚ × ℚ :=
  let tol1 := bTol1 s
  let tol2 := bTol2 s
  let xm := bXm s
  if |s.e| > tol1 then
    let r := (s.xf - s.nfc) * (s.fx - s.ffulc)
    let q0 := (s.xf - s.ffulc) * (s.fx - s.fnfc)
    let p0 := (s.xf - s.fulc) * q0 - (s.xf - s.nfc) * r
    let q1 := 2 * (q0 - r)
    let p := if q1 > 0 then -p0 else p0
    let q := |q1|
    let r2 := s.e
    let e' := s.rat
    if |p| < |q * r2 / 2| ∧ p > q * (s.a - s.xf) ∧ p < q * (s.b - s.xf) then
      let rat' := (p + 0) / q
      let x' := s.xf + rat'
      if x' - s.a < tol2 ∨ s.b - x' < tol2 then
        (true, e', tol1 * (sign (xm - s.xf) + zero_diff xm s.xf))
      else (true, e', rat')
    else (true, e', s.rat)
  else (true, s.e, s.rat)

/-- One full iteration of the `bounded` loop body (`bounded.rs` lines
    111-186): the parabolic attempt, the golden block (which runs whenever
    the `golden` component of the triple is `true` — that is, always — and
    overwrites the attempt's `e`/`rat`), the step-floor, the evaluation and
    the bookkeeping. -/
def boundedStep (f : ℚ → ℚ) (s : BoundedState) : BoundedState :=
  let tol1 := bTol1 s
  let xm := bXm s
  let ger := boundedParabTriple s
  let e2 := if ger.1 then (if s.xf ≥ xm then s.a - s.xf else s.b - s.xf) else ger.2.1
  let rat2 := if ger.1 then golden_mean * (if s.xf ≥ xm then s.a - s.xf else s.b - s.xf)
    else ger.2.2
  let si := sign rat2 + zero_or_not rat2
  let x := s.xf + si * arg_max (|rat2|) tol1
  let fu := f x
  if fu ≤ s.fx then
    let a' := if x ≥ s.xf then s.xf else s.a
    let b' := if x ≥ s.xf then s.b else s.xf
    { s with
        a := a'
        b := b'
        fulc := s.nfc
        ffulc := s.fnfc
        nfc := s.xf
        fnfc := s.fx
        xf := x
        fx := fu
        rat := rat2
        e := e2
        num := s.num + 1
        evals := s.evals + 1 }
  else
    let a' := if x < s.xf then x else s.a
    let b' := if x < s.xf then s.b else x
    if fu ≤ s.fnfc ∨ |s.nfc - s.xf| < errorMargin then
      { s with
          a := a'
          b := b'
          fulc := s.nfc
          ffulc := s.fnfc
          nfc := x
          fnfc := fu
          rat := rat2
          e := e2
          num := s.num + 1
          evals := s.evals + 1 }
    else if fu ≤ s.ffulc ∨ |s.fulc - s.xf| < errorMargin ∨
        |s.fulc - s.nfc| < errorMargin then
      { s with
          a := a'
          b := b'
          fulc := x
          ffulc := fu
          rat := rat2
          e := e2
          num := s.num + 1
          evals := s.evals + 1 }
    else
      { s with
          a := a'
          b := b'
          rat := rat2
          e := e2
          num := s.num + 1
          evals := s.evals + 1 }

/-- `r` of the parabolic attempt in `bounded` (line 116). -/
def parabR (s : BoundedState) : ℚ := (s.xf - s.nfc) * (s.fx - s.ffulc)

/-- `q` of the parabolic attempt before the sign flip and `abs` (line 117). -/
def parabQ0 (s : BoundedState) : ℚ := (s.xf - s.ffulc) * (s.fx - s.fnfc)

/-- The final (absolute) `q` of the parabolic attempt (lines 119-123). -/
def parabQ (s : BoundedState) : ℚ := |2 * (parabQ0 s - parabR s)|

/-- The final (sign-adjusted) `p` of the parabolic attempt (lines 118-122). -/
def parabP (s : BoundedState) : ℚ :=
  let p0 := (s.xf - s.fulc) * parabQ0 s - (s.xf - s.nfc) * parabR s
  if 2 * (parabQ0 s - parabR s) > 0 then -p0 else p0

/-- The parabolic-fit attempt-and-acceptance test of `bounded` (lines 114 and
    128): the previous step `e` exceeds `tol1`, the candidate magnitude is
    below half the step before the previous one, and the candidate lies
    strictly inside `(a, b)`. -/
def parabAccept (s : BoundedState) : Prop :=
  |s.e| > bTol1 s ∧ |parabP s| < |parabQ s * s.e / 2| ∧
    parabP s > parabQ s * (s.a - s.xf) ∧ parabP s < parabQ s * (s.b - s.xf)

instance (s : BoundedState) : Decidable (parabAccept s) := by
  unfold parabAccept
  infer_instance

/-- The golden-section `e` of a `bounded` iteration (lines 142-146). -/
def boundedGoldenE (s : BoundedState) : ℚ :=
  if s.xf ≥ bXm s then s.a - s.xf else s.b - s.xf

/-- The golden-section `rat` of a `bounded` iteration (line 148). -/
def boundedGoldenRat (s : BoundedState) : ℚ := golden_mean * boundedGoldenE s

/-- The point at which `boundedStep` evaluates the objective (lines 151-153).
    Because the source's `golden` flag is never cleared, the step taken is
    always the golden-section one. -/
def boundedEvalPoint (s : BoundedState) : ℚ :=
  s.xf + (sign (boundedGoldenRat s) + zero_or_not (boundedGoldenRat s)) *
    arg_max (|boundedGoldenRat s|) (bTol1 s)

/-- Modelled from the spec (§4.3/§4.4, "identical parabolic/golden hybrid"):
    the step `rat` the hybrid rule selects — the accepted parabolic vertex
    step (with the near-boundary clamp), and the golden-section step only when
    the attempt is skipped or rejected.  This is what `bounded` would compute
    were its `golden` flag cleared on acceptance, as in the scipy reference
    the source cites. -/
def boundedSpecRat (s : BoundedState) : ℚ :=
  if parabAccept s then
    let rat' := (parabP s + 0) / parabQ s
    let x' := s.xf + rat'
    if x' - s.a < bTol2 s ∨ s.b - x' < bTol2 s then
      bTol1 s * (sign (bXm s - s.xf) + zero_diff (bXm s) s.xf)
    else rat'
  else boundedGoldenRat s

/-- Modelled from the spec: the evaluation point the parabolic/golden hybrid
    of §4.4 would submit to the objective (the hybrid `rat` of
    `boundedSpecRat`, subject to the source's `tol1` step-size floor of
    line 152). -/
def boundedSpecEvalPoint (s : BoundedState) : ℚ :=
  s.xf + (sign (boundedSpecRat s) + zero_or_not (boundedSpecRat s)) *
    arg_max (|boundedSpecRat s|) (bTol1 s)

/-- The observable form of one `bounded` iteration: since the `golden`
    component of `boundedParabTriple` is `true` in every branch, the step's
    `e`/`rat` are always the golden-section ones and the evaluation point is
    `boundedEvalPoint`.  `boundedStep_eq_G` proves this equal to
    `boundedStep`; the invariant proofs work with this form. -/
def boundedStepG (f : ℚ → ℚ) (s : BoundedState) : BoundedState :=
  let e2 := boundedGoldenE s
  let rat2 := boundedGoldenRat s
  let x := boundedEvalPoint s
  let fu := f x
  if fu ≤ s.fx then
    let a' := if x ≥ s.xf then s.xf else s.a
    let b' := if x ≥ s.xf then s.b else s.xf
    { s with
        a := a'
        b := b'
        fulc := s.nfc
        ffulc := s.fnfc
        nfc := s.xf
        fnfc := s.fx
        xf := x
        fx := fu
        rat := rat2
        e := e2
        num := s.num + 1
        evals := s.evals + 1 }
  else
    let a' := if x < s.xf then x else s.a
    let b' := if x < s.xf then s.b else x
    if fu ≤ s.fnfc ∨ |s.nfc - s.xf| < errorMargin then
      { s with
          a := a'
          b := b'
          fulc := s.nfc
          ffulc := s.fnfc
          nfc := x
          fnfc := fu
          rat := rat2
          e := e2
          num := s.num + 1
          evals := s.evals + 1 }
    else if fu ≤ s.ffulc ∨ |s.fulc - s.xf| < errorMargin ∨
        |s.fulc - s.nfc| < errorMargin then
      { s with
          a := a'
          b := b'
          fulc := x
          ffulc := fu
          rat := rat2
          e := e2
          num := s.num + 1
          evals := s.evals + 1 }
    else
      { s with
          a := a'
          b := b'
          rat := rat2
          e := e2
          num := s.num + 1
          evals := s.evals + 1 }

/-- The `while` loop of `bounded` (lines 110-192): after each iteration the
    budget test `num >= maxiter as f64` sets `success = false` and breaks.
    The fuel never runs out on a continuing branch because `num` grows by one
    per pass (the top-level call supplies `maxiter + 1`). -/
def boundedLoop (f : ℚ → ℚ) (maxiter : ℕ) : ℕ → BoundedState → BoundedState
  | 0, s => s
  | n+1, s =>
    if boundedCond s then
      let s' := boundedStep f s
      if (maxiter : ℚ) ≤ s'.num then { s' with success := false }
      else boundedLoop f maxiter n s'
    else s

/-- The pre-loop state of `bounded` (lines 78-108): seed at the golden-mean
    interior point of `[x1, x2]`, one evaluation, `num = 1`. -/
def boundedInit (f : ℚ → ℚ) (x1 x2 : ℚ) : BoundedState :=
  let fulc := x1 + golden_mean * (x2 - x1)
  let fx := f fulc
  ⟨x1, x2, fulc, fulc, fulc, fx, fx, fx, 0, 0, 1, true, 1⟩

/-- The `num as usize` cast of `bounded` (`num` is a nonnegative integral
    `f64` throughout, so this is plain truncation). -/
def ratToUsize (q : ℚ) : ℕ := q.floor.toNat

/-- `bounded` from `src/minimise_scalar/bounded.rs`; the second component is
    the ghost count of objective evaluations actually performed. -/
def bounded (f : ℚ → ℚ) (bounds : ℚ × ℚ) (maxiter : ℕ) :
    Except SwoopErrors ScalarOptimisationResult × ℕ :=
  if bounds.2 < bounds.1 then
    (.error (.ArgumentError "The lower bound exceeds the upper bound"), 0)
  else
    let sf := boundedLoop f maxiter (maxiter + 1) (boundedInit f bounds.1 bounds.2)
    (.ok ⟨sf.fx, ratToUsize sf.num, sf.success, sf.xf⟩, sf.evals)

/-! ### Example objectives used in concrete runs -/

/-- The quartic test objective `(x - 2) * x * (x + 2)²` from the repository's
    `brent`/`golden` tests. -/
def fq (x : ℚ) : ℚ := (x - 2) * x * (x + 2)^2

/-- The identity objective. -/
def fid (x : ℚ) : ℚ := x

/-- The constant-zero objective. -/
def fzero (_ : ℚ) : ℚ := 0

/-- The objective `(x - 1)²` used to exercise the bounded parabolic branch. -/
def fsq1 (x : ℚ) : ℚ := (x - 1)^2

/-- The `bounded` state reached after one loop iteration on `fsq1` over
    `[0, 3]` (the iteration takes a golden step from the seed `≈1.1459` to
    `≈1.8541`); at this state the parabolic fit is attempted and accepted. -/
def boundedParabState : BoundedState :=
  ⟨0, 185410196624968435254580571686197/10^32, 11458980337503153/10^16,
   185410196624968435254580571686197/10^32, 11458980337503153/10^16,
   2128623625220814236258284941409/10^32, 2128623625220814236258284941409/10^32,
   7294901687515769488399618115579140530290967863460889627840322809/10^64,
   70820393249936905254580571686197/10^32, 18541019662496847/10^16, 2, true, 2⟩

/-! ### Helper lemmas -/

lemma arg_max_eq_max (a b : ℚ) : arg_max a b = max a b := by
  unfold arg_max
  rcases lt_trichotomy a b with h | h | h
  · rw [if_neg (by linarith), if_pos h, max_eq_right h.le]
  · subst h
    simp
  · rw [if_pos h, max_eq_left h.le]

lemma si_of_ge_eps (q : ℚ) (h : errorMargin ≤ q) :
    sign q + zero_or_not q = 1 := by
  have h0 : 0 < errorMargin := by norm_num [errorMargin]
  unfold sign zero_or_not
  rw [sub_zero, abs_of_pos (lt_of_lt_of_le h0 h), if_neg (not_lt.mpr h),
    if_pos (lt_of_lt_of_le h0 h), if_neg (not_lt.mpr h)]
  norm_num

lemma si_of_le_neg_eps (q : ℚ) (h : q ≤ -errorMargin) :
    sign q + zero_or_not q = -1 := by
  have h0 : 0 < errorMargin := by norm_num [errorMargin]
  have hq : q < 0 := lt_of_le_of_lt h (by linarith)
  unfold sign zero_or_not
  rw [sub_zero, abs_of_neg hq]
  rw [if_neg (by linarith), if_neg (not_lt.mpr hq.le), if_neg (by linarith)]
  norm_num

lemma bTol1_pos (s : BoundedState) : 0 < bTol1 s := by
  unfold bTol1
  have h1 : 0 ≤ sqrt_eps * |s.xf| := mul_nonneg (by norm_num [sqrt_eps]) (abs_nonneg _)
  have h2 : (0:ℚ) < xatol / 3 := by norm_num [xatol]
  linarith

/-- In every branch of the parabolic attempt the source leaves its `golden`
    flag `true` (the acceptance branch never clears it). -/
lemma boundedParabTriple_fst (s : BoundedState) :
    (boundedParabTriple s).1 = true := by
  unfold boundedParabTriple
  simp only []
  split_ifs <;> rfl

/-- The `bounded` loop body always takes the golden-section step: the
    accepted parabolic `e`/`rat` are overwritten by the golden block. -/
lemma boundedStep_eq_G (f : ℚ → ℚ) (s : BoundedState) :
    boundedStep f s = boundedStepG f s := by
  have h := boundedParabTriple_fst s
  simp only [boundedStep, boundedStepG, boundedEvalPoint, boundedGoldenRat,
    boundedGoldenE, h, if_true]

/-- One stopped step of the golden-section loop. -/
lemma goldenLoop_stop (f : ℚ → ℚ) (tol : ℚ) (n : ℕ) (s : GoldenState)
    (h : |s.x3 - s.x0| ≤ tol * (|s.x1| + |s.x2|)) :
    goldenLoop f tol (n + 1) s = s := by
  simp only [goldenLoop, if_pos h]

/-- One stopped step of the bracketing loop. -/
lemma bracketLoop_stop (f : ℚ → ℚ) (gl : ℚ) (n : ℕ) (s : BracketState)
    (h : ¬ s.fc < s.fb) :
    bracketLoop f gl (n + 1) s =
      (.ok ⟨(s.xa, s.xb, s.xc), s.fun_calls⟩, s.evals) := by
  simp only [bracketLoop, if_neg h]

/-- Bracketing the quartic from the default seeds stops immediately:
    `f(0) = 0 ≥ f(1) = -9` (no swap) and the extrapolated third point has a
    larger value than the middle one. -/
lemma bracket_default_fq :
    bracket_default fq = (.ok ⟨(0, 1, 1309017/500000), 3⟩, 3) := by
  unfold bracket_default bracket
  norm_num [fq, gold]
  rw [show (1001:ℕ) = 1000 + 1 from rfl, bracketLoop_stop]
  norm_num [fq]

/-- The golden-section interior points for the quartic's default bracket:
    the right segment is longer, so `x1 = xb = 1` and `x2 = xb + gc·(xc-xb)`.
    TWO evaluations happen here but `fun_calls` rises only from 3 to 4,
    while the ghost count rises to 5. -/
lemma golden_setup_fq :
    goldenSetup fq ⟨(0, 1, 1309017/500000), 3⟩ 3 =
      ⟨0, 1, 80901699551217/50000000000000, 1309017/500000, fq 1,
        fq (80901699551217/50000000000000), 4, 5, 0⟩ := by
  norm_num [goldenSetup, gc, gr, GoldenState.mk.injEq, abs_of_nonneg]

/-- One stopped step of the bounded loop. -/
lemma boundedLoop_stop (f : ℚ → ℚ) (mi n : ℕ) (s : BoundedState)
    (h : ¬ boundedCond s) : boundedLoop f mi (n + 1) s = s := by
  simp only [boundedLoop, if_neg h]

/-- The golden step keeps each interior value paired with its point. -/
lemma goldenStep_inv (f : ℚ → ℚ) (s : GoldenState)
    (h1 : s.f1 = f s.x1) (h2 : s.f2 = f s.x2) :
    (goldenStep f s).f1 = f (goldenStep f s).x1 ∧
      (goldenStep f s).f2 = f (goldenStep f s).x2 := by
  by_cases h : s.f2 < s.f1
  · simp only [goldenStep, if_pos h]
    simp [h1, h2]
  · simp only [goldenStep, if_neg h]
    simp [h1, h2]

/-- The golden loop keeps each interior value paired with its point. -/
lemma goldenLoop_inv (f : ℚ → ℚ) (tol : ℚ) (n : ℕ) (s : GoldenState)
    (h1 : s.f1 = f s.x1) (h2 : s.f2 = f s.x2) :
    (goldenLoop f tol n s).f1 = f (goldenLoop f tol n s).x1 ∧
      (goldenLoop f tol n s).f2 = f (goldenLoop f tol n s).x2 := by
  induction n generalizing s with
  | zero => exact ⟨h1, h2⟩
  | succ n ih =>
    unfold goldenLoop
    by_cases h : |s.x3 - s.x0| ≤ tol * (|s.x1| + |s.x2|)
    · simp only [if_pos h]
      exact ⟨h1, h2⟩
    · simp only [if_neg h]
      exact ih _ (goldenStep_inv f s h1 h2).1 (goldenStep_inv f s h1 h2).2

/-- The brent step keeps the best value paired with the best point. -/
lemma brentStep_fx (f : ℚ → ℚ) (tol : ℚ) (s : BrentState)
    (h : s.fx = f s.x) :
    (brentStep f tol s).fx = f (brentStep f tol s).x := by
  unfold brentStep
  simp only []
  split_ifs <;> simp [h]

/-- The brent loop keeps the best value paired with the best point. -/
lemma brentLoop_fx (f : ℚ → ℚ) (tol : ℚ) (n : ℕ) (s : BrentState)
    (h : s.fx = f s.x) :
    (brentLoop f tol n s).fx = f (brentLoop f tol n s).x := by
  induction n generalizing s with
  | zero => exact h
  | succ n ih =>
    unfold brentLoop
    by_cases hc : |s.x - brentXmid s| < brentTol2 tol s - (s.b - s.a) / 2
    · simp only [if_pos hc]
      exact h
    · simp only [if_neg hc]
      exact ih _ (brentStep_fx f tol s h)

/-- The bounded step keeps the best value paired with the best point. -/
lemma boundedStepG_fx (f : ℚ → ℚ) (s : BoundedState)
    (h : s.fx = f s.xf) :
    (boundedStepG f s).fx = f (boundedStepG f s).xf := by
  unfold boundedStepG
  simp only []
  split_ifs <;> simp [h]

/-- The bounded loop keeps the best value paired with the best point. -/
lemma boundedLoop_fx (f : ℚ → ℚ) (mi n : ℕ) (s : BoundedState)
    (h : s.fx = f s.xf) :
    (boundedLoop f mi n s).fx = f (boundedLoop f mi n s).xf := by
  induction n generalizing s with
  | zero => exact h
  | succ n ih =>
    unfold boundedLoop
    by_cases hc : boundedCond s
    · simp only [if_pos hc]
      have hstep : (boundedStep f s).fx = f (boundedStep f s).xf := by
        rw [boundedStep_eq_G]
        exact boundedStepG_fx f s h
      by_cases hb : (mi : ℚ) ≤ (boundedStep f s).num
      · simp only [if_pos hb]
        exact hstep
      · simp only [if_neg hb]
        exact ih _ hstep
    · simp only [if_neg hc]
      exact h

/-- `num as usize` on a natural value is that value. -/
lemma ratToUsize_natCast (j : ℕ) : ratToUsize (j : ℚ) = j := by
  unfold ratToUsize
  rw [(Rat.floor_def' ((j : ℚ))).trans Rat.floor_def.symm, Int.floor_natCast]
  exact Int.toNat_natCast j

/-- While the loop guard holds, the best point is more than `2·tol1` from
    the interval end on the far side of `xm`. -/
lemma boundedCond_gap (s : BoundedState) (hc : boundedCond s) :
    (s.xf ≥ bXm s → 2 * bTol1 s < s.xf - s.a) ∧
      (¬ s.xf ≥ bXm s → 2 * bTol1 s < s.b - s.xf) := by
  unfold boundedCond bTol2 bXm at hc
  constructor
  · intro hx
    rw [abs_of_nonneg (by unfold bXm at hx; linarith)] at hc
    unfold bXm at hx
    linarith
  · intro hx
    rw [abs_of_neg (by unfold bXm at hx; linarith)] at hc
    unfold bXm at hx
    linarith

/-- The golden-section step magnitude clears the `sign`/`zero_or_not`
    epsilon threshold: `golden_mean · 2 · tol1 ≥ f64::EPSILON`. -/
lemma goldenRat_clears_eps (s : BoundedState) (hgap : 2 * bTol1 s < |boundedGoldenE s|) :
    errorMargin ≤ |boundedGoldenRat s| := by
  have hgm : (0:ℚ) < golden_mean := by norm_num [golden_mean]
  have htolx : xatol / 3 ≤ bTol1 s := by
    unfold bTol1
    have := mul_nonneg (by norm_num [sqrt_eps] : (0:ℚ) ≤ sqrt_eps) (abs_nonneg s.xf)
    linarith
  have heps : errorMargin ≤ golden_mean * (2 * (xatol / 3)) := by
    norm_num [errorMargin, golden_mean, xatol]
  have hmono : golden_mean * (2 * (xatol / 3)) ≤ golden_mean * |boundedGoldenE s| := by
    apply mul_le_mul_of_nonneg_left _ hgm.le
    linarith
  unfold boundedGoldenRat
  rw [abs_mul, abs_of_pos hgm]
  linarith

/-- While the loop guard holds, the point `bounded` evaluates next lies
    strictly inside the current interval, strictly on the `e`-side of the
    best point. -/
lemma boundedEvalPoint_in (s : BoundedState) (h2 : s.a ≤ s.xf) (h3 : s.xf ≤ s.b)
    (hc : boundedCond s) :
    s.a < boundedEvalPoint s ∧ boundedEvalPoint s < s.b ∧
      (s.xf ≥ bXm s → boundedEvalPoint s < s.xf) ∧
      (¬ s.xf ≥ bXm s → s.xf < boundedEvalPoint s) := by
  have htol1 := bTol1_pos s
  have hgm : (0:ℚ) < golden_mean := by norm_num [golden_mean]
  have hgm1 : golden_mean < 1 := by norm_num [golden_mean]
  obtain ⟨hgapA, hgapB⟩ := boundedCond_gap s hc
  by_cases hx : s.xf ≥ bXm s
  · have hgap := hgapA hx
    have hE : boundedGoldenE s = s.a - s.xf := by unfold boundedGoldenE; rw [if_pos hx]
    have hEabs : |boundedGoldenE s| = s.xf - s.a := by
      rw [hE, abs_of_nonpos (by linarith)]
      ring
    have hrat : boundedGoldenRat s = golden_mean * (s.a - s.xf) := by
      unfold boundedGoldenRat
      rw [hE]
    have hratneg : boundedGoldenRat s ≤ -errorMargin := by
      have := goldenRat_clears_eps s (by rw [hEabs]; exact hgap)
      rw [abs_of_nonpos (by rw [hrat]; nlinarith)] at this
      linarith
    have hmax : arg_max (|boundedGoldenRat s|) (bTol1 s) < s.xf - s.a := by
      rw [arg_max_eq_max]
      apply max_lt
      · rw [hrat, abs_of_nonpos (by nlinarith)]
        nlinarith
      · linarith
    have hmaxpos : 0 < arg_max (|boundedGoldenRat s|) (bTol1 s) := by
      rw [arg_max_eq_max]
      exact lt_max_of_lt_right htol1
    unfold boundedEvalPoint
    rw [si_of_le_neg_eps _ hratneg]
    refine ⟨by linarith, by linarith, fun _ => by linarith, fun hx' => absurd hx hx'⟩
  · have hgap := hgapB hx
    have hE : boundedGoldenE s = s.b - s.xf := by unfold boundedGoldenE; rw [if_neg hx]
    have hEabs : |boundedGoldenE s| = s.b - s.xf := by
      rw [hE, abs_of_nonneg (by linarith)]
    have hrat : boundedGoldenRat s = golden_mean * (s.b - s.xf) := by
      unfold boundedGoldenRat
      rw [hE]
    have hratpos : errorMargin ≤ boundedGoldenRat s := by
      have := goldenRat_clears_eps s (by rw [hEabs]; exact hgap)
      rw [abs_of_nonneg (by rw [hrat]; nlinarith)] at this
      linarith
    have hmax : arg_max (|boundedGoldenRat s|) (bTol1 s) < s.b - s.xf := by
      rw [arg_max_eq_max]
      apply max_lt
      · rw [hrat, abs_of_nonneg (by nlinarith)]
        nlinarith
      · linarith
    have hmaxpos : 0 < arg_max (|boundedGoldenRat s|) (bTol1 s) := by
      rw [arg_max_eq_max]
      exact lt_max_of_lt_right htol1
    unfold boundedEvalPoint
    rw [si_of_ge_eps _ hratpos]
    refine ⟨by linarith, by linarith, fun hx' => absurd hx' hx, fun _ => by linarith⟩

/-- One guarded `bounded` iteration keeps the nested-interval invariant
    `l ≤ a ≤ xf ≤ b ≤ u`. -/
lemma boundedStepG_inv (f : ℚ → ℚ) (l u : ℚ) (s : BoundedState)
    (hc : boundedCond s)
    (h1 : l ≤ s.a) (h2 : s.a ≤ s.xf) (h3 : s.xf ≤ s.b) (h4 : s.b ≤ u) :
    l ≤ (boundedStepG f s).a ∧ (boundedStepG f s).a ≤ (boundedStepG f s).xf ∧
      (boundedStepG f s).xf ≤ (boundedStepG f s).b ∧ (boundedStepG f s).b ≤ u := by
  obtain ⟨ha', hb', hlt1, hlt2⟩ := boundedEvalPoint_in s h2 h3 hc
  have hside : boundedEvalPoint s < s.xf ∨ s.xf < boundedEvalPoint s := by
    by_cases hx : s.xf ≥ bXm s
    · exact Or.inl (hlt1 hx)
    · exact Or.inr (hlt2 hx)
  unfold boundedStepG
  simp only []
  split_ifs <;> refine ⟨?_, ?_, ?_, ?_⟩ <;> simp only [] <;>
    rcases hside with hside | hside <;> linarith

/-- One `bounded` iteration advances the source's `num` counter by one and
    does not touch `success`. -/
lemma boundedStepG_num (f : ℚ → ℚ) (s : BoundedState) :
    (boundedStepG f s).num = s.num + 1 ∧
      (boundedStepG f s).success = s.success := by
  unfold boundedStepG
  simp only []
  split_ifs <;> exact ⟨rfl, rfl⟩

/-- The bounded loop keeps the best point inside `[l, u]`. -/
lemma boundedLoop_in_bounds (f : ℚ → ℚ) (l u : ℚ) (mi : ℕ) (n : ℕ)
    (s : BoundedState)
    (h1 : l ≤ s.a) (h2 : s.a ≤ s.xf) (h3 : s.xf ≤ s.b) (h4 : s.b ≤ u) :
    l ≤ (boundedLoop f mi n s).xf ∧ (boundedLoop f mi n s).xf ≤ u := by
  induction n generalizing s with
  | zero => exact ⟨le_trans h1 h2, le_trans h3 h4⟩
  | succ n ih =>
    unfold boundedLoop
    by_cases hc : boundedCond s
    · simp only [if_pos hc]
      have hinv := boundedStepG_inv f l u s hc h1 h2 h3 h4
      rw [← boundedStep_eq_G] at hinv
      by_cases hb : (mi : ℚ) ≤ (boundedStep f s).num
      · simp only [if_pos hb]
        exact ⟨le_trans hinv.1 hinv.2.1, le_trans hinv.2.2.1 hinv.2.2.2⟩
      · simp only [if_neg hb]
        exact ih _ hinv.1 hinv.2.1 hinv.2.2.1 hinv.2.2.2
    · simp only [if_neg hc]
      exact ⟨le_trans h1 h2, le_trans h3 h4⟩

/-- If the bounded loop comes back with `success = false`, the budget break
    fired, so the final `num` is at least `maxiter`. -/
lemma boundedLoop_failure_num (f : ℚ → ℚ) (mi : ℕ) (n : ℕ) (s : BoundedState)
    (hs : s.success = true) :
    (boundedLoop f mi n s).success = false → (mi : ℚ) ≤ (boundedLoop f mi n s).num := by
  induction n generalizing s with
  | zero =>
    intro h
    simp only [boundedLoop] at h
    rw [hs] at h
    simp at h
  | succ n ih =>
    unfold boundedLoop
    by_cases hc : boundedCond s
    · simp only [if_pos hc]
      by_cases hb : (mi : ℚ) ≤ (boundedStep f s).num
      · simp only [if_pos hb]
        intro _
        exact hb
      · simp only [if_neg hb]
        have hs' : (boundedStep f s).success = true := by
          rw [boundedStep_eq_G]
          rw [(boundedStepG_num f s).2]
          exact hs
        exact ih _ hs'
    · simp only [if_neg hc]
      intro h
      rw [hs] at h
      simp at h

/-- The bounded loop's `num` counter stays a natural number. -/
lemma boundedLoop_num_nat (f : ℚ → ℚ) (mi : ℕ) (n : ℕ) (s : BoundedState)
    (k : ℕ) (hk : s.num = k) :
    ∃ j : ℕ, (boundedLoop f mi n s).num = j := by
  induction n generalizing s k with
  | zero => exact ⟨k, hk⟩
  | succ n ih =>
    unfold boundedLoop
    by_cases hc : boundedCond s
    · simp only [if_pos hc]
      have hnum : (boundedStep f s).num = ((k + 1 : ℕ) : ℚ) := by
        rw [boundedStep_eq_G, (boundedStepG_num f s).1, hk]
        push_cast
        ring
      by_cases hb : (mi : ℚ) ≤ (boundedStep f s).num
      · simp only [if_pos hb]
        exact ⟨k + 1, hnum⟩
      · simp only [if_neg hb]
        exact ih _ _ hnum
    · simp only [if_neg hc]
      exact ⟨k, hk⟩

/-! ### Claim theorems -/

/-- C1 (code bug): in `bounded`, even when the parabolic-fit candidate
    passes the acceptance test (and is subject to neither clamp nor floor
    rejection), the next evaluation point is the golden-section step, not the
    parabola-vertex step: the source never clears its `golden` flag, so the
    accepted parabolic `rat` is overwritten (scipy, which the source cites,
    sets `golden = 0` on acceptance; the spec's §4.4 hybrid is
    `boundedSpecEvalPoint`).  Concretely: minimising `(x-1)²` over `[0, 3]`,
    both of the first two loop iterations genuinely run (`boundedCond`
    holds), the second iteration's state accepts the parabolic fit, yet the
    point evaluated differs from the hybrid's point. -/
theorem bounded_discards_accepted_parabolic_step :
    boundedCond (boundedInit fsq1 0 3) ∧
    boundedStep fsq1 (boundedInit fsq1 0 3) = boundedParabState ∧
    boundedCond boundedParabState ∧
    parabAccept boundedParabState ∧
    boundedEvalPoint boundedParabState ≠ boundedSpecEvalPoint boundedParabState := by
  refine ⟨?_, ?_, ?_, ?_, ?_⟩
  · norm_num [boundedCond, boundedInit, bTol1, bTol2, bXm, golden_mean,
      sqrt_eps, xatol, fsq1, abs_of_nonneg, abs_of_nonpos]
  · norm_num [boundedStep, boundedParabTriple, boundedInit, bTol1, bTol2, bXm,
      sign, zero_or_not, zero_diff, arg_max, golden_mean, sqrt_eps, xatol,
      errorMargin, fsq1, boundedParabState, BoundedState.mk.injEq,
      abs_of_nonneg, abs_of_nonpos]
  · norm_num [boundedCond, bTol1, bTol2, bXm, golden_mean, sqrt_eps, xatol,
      boundedParabState, abs_of_nonneg, abs_of_nonpos]
  · norm_num [parabAccept, parabP, parabQ, parabQ0, parabR, bTol1, sqrt_eps,
      xatol, boundedParabState, abs_of_nonneg, abs_of_nonpos]
  · norm_num [boundedEvalPoint, boundedSpecEvalPoint, boundedSpecRat,
      parabAccept, parabP, parabQ, parabQ0, parabR, boundedGoldenRat,
      boundedGoldenE, bTol1, bTol2, bXm, sign, zero_or_not, zero_diff,
      arg_max, golden_mean, sqrt_eps, xatol, errorMargin, boundedParabState,
      abs_of_nonneg, abs_of_nonpos]

/-- C2 (code bug): `golden` returns an `nfev` one short of the number of
    objective evaluations it actually performed.  On the quartic with
    `xtol = 10` the tolerance test passes at the first loop check, and the
    call returns `nfev = 4` although the objective was evaluated 5 times
    (3 during bracketing, 2 for the initial interior points): line 53 of
    `golden.rs` increments `fun_calls` once for two evaluations. -/
theorem golden_nfev_undercounts_evaluations :
    golden fq (some 10) 500 = (.ok ⟨-9, 4, true, 1⟩, 5) := by
  simp only [golden, goldenXtolCheck, bracket_default_fq]
  norm_num [golden_setup_fq]
  rw [show (500:ℕ) = 499 + 1 from rfl, goldenLoop_stop]
  · norm_num [fq]
  · norm_num [abs_of_nonneg]

/-- C6: `golden` and `brent` reject a negative `xtol` and `bounded` rejects
    bounds with `lower > upper` with an `ArgumentError`; in all three cases
    the validation is eager — the error is produced with the ghost evaluation
    counter still at `0`, so the objective is never invoked. -/
theorem validation_eager_no_evaluation (f : ℚ → ℚ) (t : ℚ) (maxiter : ℕ) (l u : ℚ) :
    (t < 0 →
      golden f (some t) maxiter =
        (.error (.ArgumentError "Tolerance cannot be negative"), 0) ∧
      brent f (some t) maxiter =
        (.error (.ArgumentError "Tolerance cannot be negative"), 0)) ∧
    (u < l →
      bounded f (l, u) maxiter =
        (.error (.ArgumentError "The lower bound exceeds the upper bound"), 0)) := by
  refine ⟨fun ht => ⟨?_, ?_⟩, fun hb => ?_⟩
  · simp [golden, goldenXtolCheck, ht]
  · simp [brent, brentXtolCheck, ht]
  · simp [bounded, hb]

/-- C6 witness: concrete malformed calls hit the eager validation. -/
theorem validation_eager_no_evaluation_witness :
    ((-1 : ℚ) < 0 ∧ (0 : ℚ) < 1) ∧
    golden fid (some (-1)) 7 =
      (.error (.ArgumentError "Tolerance cannot be negative"), 0) ∧
    brent fid (some (-1)) 7 =
      (.error (.ArgumentError "Tolerance cannot be negative"), 0) ∧
    bounded fid (1, 0) 7 =
      (.error (.ArgumentError "The lower bound exceeds the upper bound"), 0) :=
  ⟨⟨by norm_num, by norm_num⟩,
    ((validation_eager_no_evaluation fid (-1) 7 1 0).1 (by norm_num)).1,
    ((validation_eager_no_evaluation fid (-1) 7 1 0).1 (by norm_num)).2,
    (validation_eager_no_evaluation fid (-1) 7 1 0).2 (by norm_num)⟩

/-- C9: for every pure objective, whenever `golden`, `brent` or `bounded`
    returns a `Result`, the returned `fun` field is the objective evaluated
    at the returned `x` field — the `(x, fun)` pairing is an invariant of
    every bookkeeping update in all three loops. -/
theorem result_fun_matches_x :
    (∀ (f : ℚ → ℚ) (xtol : Option ℚ) (maxiter : ℕ) (r : ScalarOptimisationResult),
      (golden f xtol maxiter).1 = .ok r → r.fun' = f r.x) ∧
    (∀ (f : ℚ → ℚ) (xtol : Option ℚ) (maxiter : ℕ) (r : ScalarOptimisationResult),
      (brent f xtol maxiter).1 = .ok r → r.fun' = f r.x) ∧
    (∀ (f : ℚ → ℚ) (l u : ℚ) (maxiter : ℕ) (r : ScalarOptimisationResult),
      (bounded f (l, u) maxiter).1 = .ok r → r.fun' = f r.x) := by
  refine ⟨?_, ?_, ?_⟩
  · intro f xtol maxiter r h
    unfold golden at h
    cases hv : goldenXtolCheck xtol with
    | error e => rw [hv] at h; simp at h
    | ok tol =>
      rw [hv] at h
      rcases hb : bracket_default f with ⟨res, n⟩
      rw [hb] at h
      cases res with
      | error e => simp at h
      | ok br =>
        simp only at h
        have hinv := goldenLoop_inv f tol maxiter (goldenSetup f br n) rfl rfl
        set sf := goldenLoop f tol maxiter (goldenSetup f br n) with hsf
        by_cases hn : sf.nit < maxiter
        · rw [if_pos hn] at h
          simp only [Except.ok.injEq] at h
          rw [← h]
          by_cases hf : sf.f1 < sf.f2
          · simp only [if_pos hf]
            exact hinv.1
          · simp only [if_neg hf]
            exact hinv.2
        · rw [if_neg hn] at h
          simp at h
  · intro f xtol maxiter r h
    unfold brent at h
    cases hv : brentXtolCheck xtol with
    | error e => rw [hv] at h; simp at h
    | ok tol =>
      rw [hv] at h
      rcases hb : bracket_default f with ⟨res, n⟩
      rw [hb] at h
      cases res with
      | error e => simp at h
      | ok br =>
        simp only [Except.ok.injEq] at h
        rw [← h]
        exact brentLoop_fx f tol maxiter _ rfl
  · intro f l u maxiter r h
    unfold bounded at h
    by_cases hb : u < l
    · rw [if_pos (by simpa using hb)] at h
      simp at h
    · rw [if_neg (by simpa using hb)] at h
      simp only [Except.ok.injEq] at h
      rw [← h]
      exact boundedLoop_fx f maxiter (maxiter + 1) _ rfl

/-- C9 witness: a concrete `bounded` run returning a result whose `fun`
    field is the objective at its `x` field. -/
theorem result_fun_matches_x_witness :
    (bounded fzero (0, 0) 5).1 = .ok ⟨0, 1, true, 0⟩ ∧
    (⟨0, 1, true, 0⟩ : ScalarOptimisationResult).fun' =
      fzero (⟨0, 1, true, 0⟩ : ScalarOptimisationResult).x := by
  have hc : ¬ boundedCond (boundedInit fzero 0 0) := by
    norm_num [boundedCond, boundedInit, bTol1, bTol2, bXm, sqrt_eps, xatol,
      golden_mean, fzero]
  have h : (bounded fzero (0, 0) 5).1 = .ok ⟨0, 1, true, 0⟩ := by
    unfold bounded
    rw [if_neg (by norm_num)]
    rw [boundedLoop_stop fzero 5 5 _ hc]
    simp only []
    have h1 : (boundedInit fzero 0 0).num = 1 := rfl
    have h2 : (boundedInit fzero 0 0).success = true := rfl
    rw [h1, h2]
    norm_num [boundedInit, fzero, golden_mean, ratToUsize]
    rfl
  exact ⟨h, result_fun_matches_x.2.2 fzero 0 0 5 ⟨0, 1, true, 0⟩ h⟩

/-- C4: whenever `brent` returns a `Result` (bracketing did not fail), that
    result carries `success = true`, for any `xtol` and any `maxiter` —
    the loop never records whether its convergence test was satisfied. -/
theorem brent_always_success (f : ℚ → ℚ) (xtol : Option ℚ) (maxiter : ℕ)
    (r : ScalarOptimisationResult) (h : (brent f xtol maxiter).1 = .ok r) :
    r.success = true := by
  unfold brent at h
  cases hv : brentXtolCheck xtol with
  | error e =>
    rw [hv] at h
    simp at h
  | ok tol =>
    rw [hv] at h
    rcases hb : bracket_default f with ⟨res, n⟩
    rw [hb] at h
    cases res with
    | error e => simp at h
    | ok br =>
      simp only at h
      rw [Except.ok.injEq] at h
      rw [← h]

/-- C4 witness: `brent` on the quartic with `maxiter = 0` returns a result,
    and the theorem yields `success = true` for it. -/
theorem brent_always_success_witness :
    (brent fq none 0).1 = .ok ⟨-9, 4, true, 1⟩ ∧
    (⟨-9, 4, true, 1⟩ : ScalarOptimisationResult).success = true := by
  have h : (brent fq none 0).1 = .ok ⟨-9, 4, true, 1⟩ := by
    simp only [brent, brentXtolCheck, bracket_default_fq, brentLoop]
    norm_num [fq]
  exact ⟨h, brent_always_success fq none 0 _ h⟩

/-- C3: exhausting an iteration budget is a hard failure for golden-section
    search and for bracketing.  First part: if the golden loop performs all
    `maxiter` passes without its tolerance `break` (its `nit` equals
    `maxiter`), `golden` returns `MaxIterExceeded` — no partial result.
    Second part: if the bracketing budget is exhausted (`iter > maxiter`,
    i.e. zero fuel) while the downhill condition `fc < fb` still holds,
    `bracket` returns `MaxIterExceeded`. -/
theorem maxiter_exhaustion_hard_failure (f : ℚ → ℚ) :
    (∀ (xtol : Option ℚ) (tol : ℚ) (maxiter : ℕ) (br : BracketResult) (n : ℕ),
      goldenXtolCheck xtol = .ok tol →
      bracket_default f = (.ok br, n) →
      (goldenLoop f tol maxiter (goldenSetup f br n)).nit = maxiter →
      (golden f xtol maxiter).1 = .error .MaxIterExceeded) ∧
    (∀ (gl : ℚ) (s : BracketState), s.fc < s.fb →
      bracketLoop f gl 0 s = (.error .MaxIterExceeded, s.evals)) := by
  constructor
  · intro xtol tol maxiter br n hv hb hnit
    unfold golden
    rw [hv, hb]
    simp only [hnit, lt_irrefl, if_false]
  · intro gl s h
    simp only [bracketLoop, if_pos h]

/-- C3 witness: with `maxiter = 0` the golden loop performs all zero passes
    on the quartic and `golden` fails; a state still downhill at zero fuel
    makes bracketing fail. -/
theorem maxiter_exhaustion_hard_failure_witness :
    (goldenXtolCheck none = .ok goldenDefaultXtol ∧
      bracket_default fq = (.ok ⟨(0, 1, 1309017/500000), 3⟩, 3) ∧
      (goldenLoop fq goldenDefaultXtol 0
        (goldenSetup fq ⟨(0, 1, 1309017/500000), 3⟩ 3)).nit = 0 ∧
      (golden fq none 0).1 = .error .MaxIterExceeded) ∧
    ((⟨0, 1, 2, 0, 0, -1, 3, 3⟩ : BracketState).fc <
        (⟨0, 1, 2, 0, 0, -1, 3, 3⟩ : BracketState).fb ∧
      bracketLoop fq 110 0 ⟨0, 1, 2, 0, 0, -1, 3, 3⟩ =
        (.error .MaxIterExceeded, 3)) :=
  ⟨⟨rfl, bracket_default_fq, rfl,
    (maxiter_exhaustion_hard_failure fq).1 none goldenDefaultXtol 0 _ 3 rfl
      bracket_default_fq rfl⟩,
   ⟨by norm_num,
    (maxiter_exhaustion_hard_failure fq).2 110 ⟨0, 1, 2, 0, 0, -1, 3, 3⟩
      (by norm_num)⟩⟩

/-- C5: for valid bounds `l ≤ u`, `bounded` never returns an error: it
    returns a result whose `x` lies inside the closed interval `[l, u]`, and
    when that result carries `success = false` (the exhaustion path), the
    evaluation budget was indeed consumed (`nfev ≥ maxiter`). -/
theorem bounded_exhaustion_flagged_not_error (f : ℚ → ℚ) (l u : ℚ)
    (maxiter : ℕ) (hlu : l ≤ u) :
    ∃ r, (bounded f (l, u) maxiter).1 = .ok r ∧ l ≤ r.x ∧ r.x ≤ u ∧
      (r.success = false → maxiter ≤ r.nfev) := by
  unfold bounded
  rw [if_neg (by simpa using not_lt.mpr hlu)]
  simp only []
  have hgm : (0:ℚ) < golden_mean := by norm_num [golden_mean]
  have hgm1 : golden_mean < 1 := by norm_num [golden_mean]
  have ha : (boundedInit f l u).a = l := rfl
  have hb : (boundedInit f l u).b = u := rfl
  have hxf : (boundedInit f l u).xf = l + golden_mean * (u - l) := rfl
  have i2 : (boundedInit f l u).a ≤ (boundedInit f l u).xf := by
    rw [ha, hxf]
    have := mul_nonneg hgm.le (by linarith : (0:ℚ) ≤ u - l)
    linarith
  have i3 : (boundedInit f l u).xf ≤ (boundedInit f l u).b := by
    rw [hb, hxf]
    have := mul_nonneg (by linarith : (0:ℚ) ≤ 1 - golden_mean)
      (by linarith : (0:ℚ) ≤ u - l)
    nlinarith
  have hin := boundedLoop_in_bounds f l u maxiter (maxiter + 1)
    (boundedInit f l u) (le_of_eq ha.symm) i2 i3 (le_of_eq hb)
  refine ⟨⟨_, _, _, _⟩, rfl, hin.1, hin.2, ?_⟩
  intro hfail
  have hnum := boundedLoop_failure_num f maxiter (maxiter + 1)
    (boundedInit f l u) rfl hfail
  obtain ⟨j, hj⟩ := boundedLoop_num_nat f maxiter (maxiter + 1)
    (boundedInit f l u) 1 rfl
  rw [hj] at hnum
  rw [hj, ratToUsize_natCast]
  exact_mod_cast hnum

/-- C5 witness: a concrete valid-bounds call returning a result inside the
    interval. -/
theorem bounded_exhaustion_flagged_not_error_witness :
    (0:ℚ) ≤ 0 ∧ ∃ r, (bounded fzero (0, 0) 5).1 = .ok r ∧ (0:ℚ) ≤ r.x ∧
      r.x ≤ 0 ∧ (r.success = false → 5 ≤ r.nfev) :=
  ⟨le_refl 0, bounded_exhaustion_flagged_not_error fzero 0 0 5 (le_refl 0)⟩

/-- C7 counterexample: for the constant-zero objective, bracketing returns a
    triple whose middle value is NOT strictly below the third point's value —
    `f(xb) = f(xc) = 0` — because the loop exits as soon as `fc < fb` fails,
    which allows equality.  This refutes the claim's strict `<`. -/
theorem bracket_middle_strict_counterexample :
    (bracket fzero 0 1 110 1000).1 = .ok ⟨(0, 1, 1309017/500000), 3⟩ ∧
    ¬ (fzero 1 < fzero (1309017/500000)) := by
  constructor
  · unfold bracket
    norm_num [fzero, gold]
    rw [show (1001:ℕ) = 1000 + 1 from rfl, bracketLoop_stop]
    norm_num [fzero]
  · norm_num [fzero]

/-- C7 (amended): whenever bracketing returns a triple `(xa, xb, xc)`, the
    middle point's value is ≤ the value at `xa` and ≤ (not necessarily
    strictly below) the value at `xc`; `xa, xb` need not be sorted
    numerically. -/
theorem bracket_middle_le_outer (f : ℚ → ℚ) (xa xb gl : ℚ) (maxiter : ℕ)
    (br : BracketResult) (n : ℕ)
    (h : bracket f xa xb gl maxiter = (.ok br, n)) :
    f br.bracket.2.1 ≤ f br.bracket.1 ∧ f br.bracket.2.1 ≤ f br.bracket.2.2 := by
  have key : ∀ (fuel : ℕ) (s : BracketState) (br' : BracketResult) (m : ℕ),
      s.fa = f s.xa → s.fb = f s.xb → s.fc = f s.xc → s.fb ≤ s.fa →
      bracketLoop f gl fuel s = (.ok br', m) →
      f br'.bracket.2.1 ≤ f br'.bracket.1 ∧
        f br'.bracket.2.1 ≤ f br'.bracket.2.2 := by
    intro fuel
    induction fuel with
    | zero =>
      intro s br' m ha hb hc hba hl
      by_cases hfc : s.fc < s.fb
      · simp only [bracketLoop, if_pos hfc] at hl
        simp at hl
      · simp only [bracketLoop, if_neg hfc] at hl
        simp only [Prod.mk.injEq, Except.ok.injEq] at hl
        rw [← hl.1]
        refine ⟨by rw [← ha, ← hb]; exact hba, by rw [← hb, ← hc]; linarith [not_lt.mp hfc]⟩
    | succ fuel ih =>
      intro s br' m ha hb hc hba hl
      by_cases hfc : s.fc < s.fb
      · simp only [bracketLoop, if_pos hfc] at hl
        split_ifs at hl <;>
        first
          | exact ih _ _ _ hb hc rfl hfc.le hl
          | exact ih _ _ _ hc rfl rfl (by linarith) hl
          | (simp only [Prod.mk.injEq, Except.ok.injEq] at hl
             rw [← hl.1]
             exact ⟨by simp only []; linarith, by simp only []; linarith⟩)
      · simp only [bracketLoop, if_neg hfc] at hl
        simp only [Prod.mk.injEq, Except.ok.injEq] at hl
        rw [← hl.1]
        refine ⟨by rw [← ha, ← hb]; exact hba, by rw [← hb, ← hc]; linarith [not_lt.mp hfc]⟩
  unfold bracket at h
  by_cases hswap : f xa < f xb
  · simp only [if_pos hswap] at h
    exact key _ _ _ _ rfl rfl rfl hswap.le h
  · simp only [if_neg hswap] at h
    exact key _ _ _ _ rfl rfl rfl (not_lt.mp hswap) h

/-- C7 witness: the quartic's default bracket satisfies the amended
    invariant. -/
theorem bracket_middle_le_outer_witness :
    bracket fq 0 1 110 1000 = (.ok ⟨(0, 1, 1309017/500000), 3⟩, 3) ∧
    fq 1 ≤ fq 0 ∧ fq 1 ≤ fq (1309017/500000) := by
  have h : bracket fq 0 1 110 1000 = (.ok ⟨(0, 1, 1309017/500000), 3⟩, 3) :=
    bracket_default_fq
  exact ⟨h, (bracket_middle_le_outer fq 0 1 110 1000 _ 3 h).1,
    (bracket_middle_le_outer fq 0 1 110 1000 _ 3 h).2⟩

/-- C10: the `bounded` budget test sits after the in-loop evaluation and
    compares the evaluation count `num` (seeded at 1) with `maxiter`; a call
    whose seed point already satisfies the convergence test therefore returns
    `success = true` with `nfev = 1` before any budget consultation — for
    every `maxiter`, including `maxiter = 0`. -/
theorem bounded_seed_convergence_skips_budget (f : ℚ → ℚ) (l u : ℚ)
    (maxiter : ℕ) (hlu : l ≤ u)
    (hconv : ¬ boundedCond (boundedInit f l u)) :
    bounded f (l, u) maxiter =
      (.ok ⟨(boundedInit f l u).fx, 1, true, (boundedInit f l u).xf⟩, 1) := by
  unfold bounded
  rw [if_neg (not_lt.mpr hlu)]
  have hloop : boundedLoop f maxiter (maxiter + 1) (boundedInit f l u) =
      boundedInit f l u := by
    simp only [boundedLoop, if_neg hconv]
  simp only [hloop]
  have h1 : (boundedInit f l u).num = 1 := rfl
  have h2 : (boundedInit f l u).success = true := rfl
  have h3 : (boundedInit f l u).evals = 1 := rfl
  rw [h1, h2, h3]
  norm_num [ratToUsize]
  rfl

/-- C10 witness: on the degenerate interval `[0, 0]` the seed already
    satisfies the convergence test, and `bounded` with `maxiter = 0` returns
    `success = true` and `nfev = 1`. -/
theorem bounded_seed_convergence_skips_budget_witness :
    ((0:ℚ) ≤ 0 ∧ ¬ boundedCond (boundedInit fzero 0 0)) ∧
    bounded fzero (0, 0) 0 =
      (.ok ⟨(boundedInit fzero 0 0).fx, 1, true, (boundedInit fzero 0 0).xf⟩, 1) :=
  ⟨⟨le_refl 0, by norm_num [boundedCond, boundedInit, bTol1, bTol2, bXm,
      sqrt_eps, xatol, golden_mean, fzero]⟩,
    bounded_seed_convergence_skips_budget fzero 0 0 0 (le_refl 0)
      (by norm_num [boundedCond, boundedInit, bTol1, bTol2, bXm,
        sqrt_eps, xatol, golden_mean, fzero])⟩

end Swoop
